import Mathlib

/-!
Shallow embedding of the trust/access-control core of `sql-genius-ai`:
the RBAC permission engine (`backend/auth/rbac.py`) and the JWT key,
token and session service (`backend/auth/jwt_manager.py`).

Python `Any`-typed dictionary values are modelled by the scalar value
type `PyVal` together with Python truthiness.  Redis is modelled as
explicit store records; an operation that may raise is modelled with
`StoreResult`, and each `try/except` handler of the source is translated
at the same place it occurs in the source.
-/

namespace SQLGenius

/-- Scalar Python value (the `Any` of condition/metadata dictionaries). -/
inductive PyVal where
  | none : PyVal
  | bool : Bool → PyVal
  | int : Int → PyVal
  | str : String → PyVal
deriving DecidableEq

/-- Python truthiness for `PyVal`. -/
def PyVal.truthy : PyVal → Bool
  | PyVal.none => false
  | PyVal.bool b => b
  | PyVal.int n => n != 0
  | PyVal.str s => !s.isEmpty

/-- `class ResourceType(str, Enum)` of `rbac.py`. -/
inductive ResourceType where
  | user | tenant | query | file | dashboard | api_key | billing | analytics | system
deriving DecidableEq

/-- The `.value` string of a `ResourceType` member. -/
def ResourceType.val : ResourceType → String
  | ResourceType.user => "user"
  | ResourceType.tenant => "tenant"
  | ResourceType.query => "query"
  | ResourceType.file => "file"
  | ResourceType.dashboard => "dashboard"
  | ResourceType.api_key => "api_key"
  | ResourceType.billing => "billing"
  | ResourceType.analytics => "analytics"
  | ResourceType.system => "system"

/-- `ResourceType(value)`: enum lookup by value, `none` models `ValueError`. -/
def ResourceType.ofVal (s : String) : Option ResourceType :=
  if s == "user" then some ResourceType.user
  else if s == "tenant" then some ResourceType.tenant
  else if s == "query" then some ResourceType.query
  else if s == "file" then some ResourceType.file
  else if s == "dashboard" then some ResourceType.dashboard
  else if s == "api_key" then some ResourceType.api_key
  else if s == "billing" then some ResourceType.billing
  else if s == "analytics" then some ResourceType.analytics
  else if s == "system" then some ResourceType.system
  else Option.none

/-- `class Action(str, Enum)` of `rbac.py`. -/
inductive Action where
  | create | read | update | delete | execute | manage | admin
deriving DecidableEq

/-- The `.value` string of an `Action` member. -/
def Action.val : Action → String
  | Action.create => "create"
  | Action.read => "read"
  | Action.update => "update"
  | Action.delete => "delete"
  | Action.execute => "execute"
  | Action.manage => "manage"
  | Action.admin => "admin"

/-- `Action(value)`: enum lookup by value. -/
def Action.ofVal (s : String) : Option Action :=
  if s == "create" then some Action.create
  else if s == "read" then some Action.read
  else if s == "update" then some Action.update
  else if s == "delete" then some Action.delete
  else if s == "execute" then some Action.execute
  else if s == "manage" then some Action.manage
  else if s == "admin" then some Action.admin
  else Option.none

/-- `class Effect(str, Enum)` of `rbac.py`. -/
inductive Effect where
  | allow | deny
deriving DecidableEq

/-- The `.value` string of an `Effect` member. -/
def Effect.val : Effect → String
  | Effect.allow => "allow"
  | Effect.deny => "deny"

/-- `Effect(value)`: enum lookup by value. -/
def Effect.ofVal (s : String) : Option Effect :=
  if s == "allow" then some Effect.allow
  else if s == "deny" then some Effect.deny
  else Option.none

/-- `@dataclass Permission` of `rbac.py`. -/
structure Permission where
  resource_type : ResourceType
  action : Action
  effect : Effect := Effect.allow
  conditions : List (String × PyVal) := []
  resource_ids : Option (List String) := Option.none
deriving DecidableEq

/-- `@dataclass Role` of `rbac.py`.  A `datetime` is carried as an abstract
timestamp (`Nat`). -/
structure Role where
  name : String
  description : String
  permissions : List Permission := []
  inherits_from : List String := []
  metadata : List (String × PyVal) := []
  is_system_role : Bool := false
  created_at : Option Nat := Option.none
  updated_at : Option Nat := Option.none
deriving DecidableEq

/-- The request `context` dictionary: the fields `_evaluate_conditions` reads
via `context.get`.  An absent key reads as `Option.none` (`dict.get` default),
`resource_shared_with` defaults to `[]`, the two boolean flags to `false`. -/
structure Context where
  user_tenant_id : Option String := Option.none
  resource_tenant_id : Option String := Option.none
  user_id : Option String := Option.none
  resource_owner_id : Option String := Option.none
  resource_shared_with : List String := []
  is_api_request : Bool := false
  has_advanced_features : Bool := false
deriving DecidableEq

/-- The empty `context` dictionary. -/
def Context.empty : Context := {}

/-- Python `x in l` for an `Optional[str]` against a list of strings
(`None in l` is `False` when `l` holds strings). -/
def optMem : Option String → List String → Bool
  | Option.none, _ => false
  | some u, l => l.contains u

/-- One loop iteration of `_evaluate_conditions`: `true` means the iteration
does not `return False`.  Unknown condition keys fall through every branch. -/
def condition_holds (context : Context) (condition_key : String) (condition_value : PyVal) : Bool :=
  if condition_key == "same_tenant" then
    !(condition_value.truthy && (context.user_tenant_id != context.resource_tenant_id))
  else if condition_key == "owner" then
    !(condition_value.truthy && (context.user_id != context.resource_owner_id))
  else if condition_key == "owner_or_shared" then
    !(condition_value.truthy && (context.user_id != context.resource_owner_id)
      && !(optMem context.user_id context.resource_shared_with))
  else if condition_key == "shared" then
    !(condition_value.truthy && !(optMem context.user_id context.resource_shared_with))
  else if condition_key == "api_access" then
    !(condition_value.truthy && !context.is_api_request)
  else if condition_key == "advanced_queries" then
    !(condition_value.truthy && !context.has_advanced_features)
  else true

/-- `RBACService._evaluate_conditions`: `True` when the dictionary is empty,
otherwise every entry must pass its branch. -/
def evaluate_conditions (conditions : List (String × PyVal)) (context : Context) : Bool :=
  conditions.all fun kv => condition_holds context kv.1 kv.2

/-- Python truthiness of `Optional[List[str]]` (`None` and `[]` are falsy). -/
def truthyIdList : Option (List String) → Bool
  | Option.none => false
  | some l => !l.isEmpty

/-- Python truthiness of `Optional[str]` (`None` and `""` are falsy). -/
def truthyOptStr : Option String → Bool
  | Option.none => false
  | some s => !s.isEmpty

/-- `resource_id not in permission.resource_ids` (only reached when both are
truthy, so the default arms are never hit there). -/
def residNotIn (resource_ids : Option (List String)) (resource_id : Option String) : Bool :=
  match resource_ids, resource_id with
  | some ids, some r => !ids.contains r
  | _, _ => true

/-- `RBACService._permission_matches`. -/
def permission_matches (permission : Permission) (resource_type : ResourceType)
    (action : Action) (resource_id : Option String) (context : Context) : Bool :=
  if permission.resource_type != resource_type then false
  else if permission.action != action && permission.action != Action.admin then false
  else if truthyIdList permission.resource_ids && truthyOptStr resource_id
      && residNotIn permission.resource_ids resource_id then false
  else evaluate_conditions permission.conditions context

/-- `RBACService._evaluate_permissions`: partition by effect, deny first,
then allow, default deny. -/
def evaluate_permissions (permissions : List Permission) (resource_type : ResourceType)
    (action : Action) (resource_id : Option String) (context : Context) : Bool :=
  let deny_permissions := permissions.filter fun p => p.effect == Effect.deny
  let allow_permissions := permissions.filter fun p => p.effect == Effect.allow
  if deny_permissions.any (fun p => permission_matches p resource_type action resource_id context)
    then false
  else if allow_permissions.any (fun p => permission_matches p resource_type action resource_id context)
    then true
  else false

/-- Outcome of one Redis operation: `ok` with a value, or `err` when the
operation raises (connection error, timeout, ...). -/
inductive StoreResult (α : Type) where
  | ok : α → StoreResult α
  | err : StoreResult α
deriving DecidableEq

/-- The Redis state reachable from `RBACService`: role records under
`rbac:role:{name}` (an association list, first binding wins), per-user role
assignments (only the `"role"` field of each assignment is read on the
permission path), the per-user permission cache, and the outcome of the
cache `setex`.  `role_read_err name` is true when the `get` on
`rbac:role:{name}` raises. -/
structure RBACStore where
  roles : List (String × Role)
  role_read_err : String → Bool
  user_roles : String → StoreResult (Option (List String))
  user_permissions_cache : String → StoreResult (Option (List Permission))
  cache_write : StoreResult Unit

/-- `RBACService.get_role`: a store error or a missing record both come back
as `None` (the `except` clause returns `None`). -/
def get_role (store : RBACStore) (role_name : String) : Option Role :=
  if store.role_read_err role_name then Option.none
  else store.roles.lookup role_name

/-- `RBACService._get_user_roles`: store error or absent key give `[]`. -/
def get_user_roles (store : RBACStore) (user_id : String) : List String :=
  match store.user_roles user_id with
  | StoreResult.err => []
  | StoreResult.ok Option.none => []
  | StoreResult.ok (some rs) => rs

/-- Names under which a role record is stored. -/
def role_keys (store : RBACStore) : List String := store.roles.map Prod.fst

/-- Number of stored role names not yet in `processed` (termination measure). -/
def unprocessed_count (store : RBACStore) (processed : List String) : Nat :=
  ((role_keys store).filter fun k => !processed.contains k).length

/-- Total number of `inherits_from` edges in the store (termination measure). -/
def fan (store : RBACStore) : Nat :=
  (store.roles.map fun kr => kr.2.inherits_from.length).sum

def length_filter_le_of_imp {α : Type} {l : List α} {p q : α → Bool}
    (h : ∀ x, q x = true → p x = true) : (l.filter q).length ≤ (l.filter p).length := by
  induction l with
  | nil => simp
  | cons a t ih =>
    cases hq : q a with
    | true =>
      have hp := h a hq
      simp only [List.filter_cons, hq, hp, if_true, List.length_cons]
      omega
    | false =>
      cases hp : p a with
      | true =>
        simp only [List.filter_cons, hq, hp]
        simp only [if_true, List.length_cons]
        simp only [Bool.false_eq_true, if_false]
        exact Nat.le_succ_of_le ih
      | false =>
        simp only [List.filter_cons, hq, hp, Bool.false_eq_true, if_false]
        exact ih

def length_filter_lt_of_mem {α : Type} {l : List α} {p q : α → Bool} {n : α}
    (h : ∀ x, q x = true → p x = true) (hpn : p n = true) (hqn : q n = false)
    (hmem : n ∈ l) : (l.filter q).length < (l.filter p).length := by
  induction l with
  | nil => simp at hmem
  | cons a t ih =>
    rcases List.mem_cons.1 hmem with rfl | hat
    · simp only [List.filter_cons, hpn, hqn, if_true, Bool.false_eq_true, if_false,
        List.length_cons]
      exact Nat.lt_succ_of_le (length_filter_le_of_imp h)
    · cases hq : q a with
      | true =>
        have hp := h a hq
        simp only [List.filter_cons, hq, hp, if_true, List.length_cons]
        exact Nat.succ_lt_succ (ih hat)
      | false =>
        cases hp : p a with
        | true =>
          simp only [List.filter_cons, hq, hp, if_true, Bool.false_eq_true, if_false,
            List.length_cons]
          exact Nat.lt_succ_of_lt (ih hat)
        | false =>
          simp only [List.filter_cons, hq, hp, Bool.false_eq_true, if_false]
          exact ih hat

def lookup_some_mem_keys {α β : Type} [BEq α] [LawfulBEq α]
    {l : List (α × β)} {n : α} {r : β}
    (h : l.lookup n = some r) : n ∈ l.map Prod.fst := by
  induction l with
  | nil => simp [List.lookup] at h
  | cons a t ih =>
    rw [List.lookup] at h
    cases he : n == a.1 with
    | true =>
      simp only [List.map_cons]
      exact List.mem_cons.2 (Or.inl (beq_iff_eq.1 he))
    | false =>
      simp only [he] at h
      exact List.mem_cons_of_mem _ (ih h)

def lookup_fan_le {l : List (String × Role)} {n : String} {r : Role}
    (h : l.lookup n = some r) :
    r.inherits_from.length ≤ (l.map fun kr => kr.2.inherits_from.length).sum := by
  induction l with
  | nil => simp [List.lookup] at h
  | cons a t ih =>
    rw [List.lookup] at h
    cases he : n == a.1 with
    | true =>
      simp only [he] at h
      cases h
      simp only [List.map_cons, List.sum_cons]
      omega
    | false =>
      simp only [he] at h
      have := ih h
      simp only [List.map_cons, List.sum_cons]
      omega

def unprocessed_count_cons_le (store : RBACStore) (n : String) (processed : List String) :
    unprocessed_count store (n :: processed) ≤ unprocessed_count store processed := by
  apply length_filter_le_of_imp
  intro x hx
  simp only [Bool.not_eq_true', List.contains_cons] at hx ⊢
  exact (Bool.or_eq_false_iff.1 hx).2

def unprocessed_count_cons_lt {store : RBACStore} {n : String} {processed : List String}
    (hkey : n ∈ role_keys store) (hnp : processed.contains n = false) :
    unprocessed_count store (n :: processed) < unprocessed_count store processed := by
  apply length_filter_lt_of_mem (n := n) _ _ _ hkey
  · intro x hx
    simp only [Bool.not_eq_true', List.contains_cons] at hx ⊢
    exact (Bool.or_eq_false_iff.1 hx).2
  · simpa using hnp
  · simp

/-- `RBACService._collect_role_permissions`, written as the equivalent
explicit worklist traversal of the same depth-first recursion: pop a role
name; skip it when already processed; otherwise mark it processed, append its
direct permissions, and push its `inherits_from` in front of the remaining
worklist.  Returns the extended permission list and the processed set (most
recently processed first). -/
def collect_role_permissions (store : RBACStore) (worklist : List String)
    (permissions : List Permission) (processed : List String) :
    List Permission × List String :=
  match worklist with
  | [] => (permissions, processed)
  | role_name :: rest =>
    if hmem : processed.contains role_name then
      collect_role_permissions store rest permissions processed
    else
      match hrole : get_role store role_name with
      | Option.none => collect_role_permissions store rest permissions (role_name :: processed)
      | some role =>
        collect_role_permissions store (role.inherits_from ++ rest)
          (permissions ++ role.permissions) (role_name :: processed)
termination_by unprocessed_count store processed * (1 + fan store) + worklist.length
decreasing_by
  · simp only [List.length_cons]
    exact Nat.add_lt_add_left (Nat.lt_succ_self _) _
  · have h2 : unprocessed_count store (role_name :: processed) * (1 + fan store) ≤
        unprocessed_count store processed * (1 + fan store) :=
      Nat.mul_le_mul_right _ (unprocessed_count_cons_le store role_name processed)
    simp only [List.length_cons]
    exact Nat.lt_of_le_of_lt (Nat.add_le_add_right h2 _)
      (Nat.add_lt_add_left (Nat.lt_succ_self _) _)
  · have hlk : store.roles.lookup role_name = some role := by
      unfold get_role at hrole
      by_cases herr : store.role_read_err role_name <;> simp [herr] at hrole
      exact hrole
    have hu : unprocessed_count store (role_name :: processed) <
        unprocessed_count store processed :=
      unprocessed_count_cons_lt (lookup_some_mem_keys hlk) (by simpa using hmem)
    have hih : role.inherits_from.length ≤ fan store := lookup_fan_le hlk
    have hmul : unprocessed_count store (role_name :: processed) * (1 + fan store)
        + (1 + fan store) ≤ unprocessed_count store processed * (1 + fan store) := by
      have h2 : (unprocessed_count store (role_name :: processed) + 1) * (1 + fan store) ≤
          unprocessed_count store processed * (1 + fan store) :=
        Nat.mul_le_mul_right _ hu
      calc unprocessed_count store (role_name :: processed) * (1 + fan store) + (1 + fan store)
          = (unprocessed_count store (role_name :: processed) + 1) * (1 + fan store) := by ring
        _ ≤ _ := h2
    simp only [List.length_append, List.length_cons]
    generalize unprocessed_count store (role_name :: processed) * (1 + fan store) = A at hmul
    generalize unprocessed_count store processed * (1 + fan store) = B at hmul
    omega

/-- `RBACService._get_user_permissions`: on a cache hit return the cached
list; otherwise walk the role assignments through the inheritance traversal
and cache the result.  Every store exception along the way is caught and
yields `[]` (the function's `except` clause). -/
def get_user_permissions_impl (store : RBACStore) (user_id : String) : List Permission :=
  match store.user_permissions_cache user_id with
  | StoreResult.err => []
  | StoreResult.ok (some cached) => cached
  | StoreResult.ok Option.none =>
    let assigned := get_user_roles store user_id
    let result := collect_role_permissions store assigned [] []
    match store.cache_write with
    | StoreResult.err => []
    | StoreResult.ok _ => result.1

/-- `RBACService.get_user_permissions` (public wrapper; its `except` clause
is unreachable because the inner function already catches). -/
def get_user_permissions (store : RBACStore) (user_id : String) : List Permission :=
  get_user_permissions_impl store user_id

/-- `RBACService.check_permission`: resolve the user's permissions and
evaluate them; any exception would yield `False`, and the resolution step
already maps store errors to `[]`. -/
def check_permission (store : RBACStore) (user_id : String)
    (resource_type : ResourceType) (action : Action)
    (resource_id : Option String) (context : Context) : Bool :=
  evaluate_permissions (get_user_permissions_impl store user_id)
    resource_type action resource_id context

/-! ### Serialization (`_serialize_role` / `_deserialize_role` and the
permission pair).  The JSON dictionary is modelled structurally; the
`datetime.isoformat` / `datetime.fromisoformat` pair is a standard-library
bijection on datetime values and is modelled as the identity on the
abstract timestamp. -/

/-- The dictionary produced by `_serialize_permission`. -/
structure SerializedPermission where
  resource_type : String
  action : String
  effect : String
  conditions : List (String × PyVal)
  resource_ids : Option (List String)
deriving DecidableEq

/-- `RBACService._serialize_permission`. -/
def serialize_permission (permission : Permission) : SerializedPermission :=
  { resource_type := permission.resource_type.val
    action := permission.action.val
    effect := permission.effect.val
    conditions := permission.conditions
    resource_ids := permission.resource_ids }

/-- `RBACService._deserialize_permission`; `none` models the `ValueError`
raised by an enum lookup on an unknown value. -/
def deserialize_permission (data : SerializedPermission) : Option Permission :=
  match ResourceType.ofVal data.resource_type, Action.ofVal data.action,
      Effect.ofVal data.effect with
  | some rt, some a, some e =>
    some { resource_type := rt, action := a, effect := e,
           conditions := data.conditions, resource_ids := data.resource_ids }
  | _, _, _ => Option.none

/-- The dictionary produced by `_serialize_role`. -/
structure SerializedRole where
  name : String
  description : String
  permissions : List SerializedPermission
  inherits_from : List String
  metadata : List (String × PyVal)
  is_system_role : Bool
  created_at : Option Nat
  updated_at : Option Nat
deriving DecidableEq

/-- `RBACService._serialize_role` (`isoformat` on a present timestamp,
`None` otherwise). -/
def serialize_role (role : Role) : SerializedRole :=
  { name := role.name
    description := role.description
    permissions := role.permissions.map serialize_permission
    inherits_from := role.inherits_from
    metadata := role.metadata
    is_system_role := role.is_system_role
    created_at := role.created_at
    updated_at := role.updated_at }

/-- The list comprehension
`[self._deserialize_permission(p) for p in data["permissions"]]`: the first
failing entry fails the whole list. -/
def deserialize_permission_list : List SerializedPermission → Option (List Permission)
  | [] => some []
  | d :: rest =>
    match deserialize_permission d, deserialize_permission_list rest with
    | some p, some ps => some (p :: ps)
    | _, _ => Option.none

/-- `RBACService._deserialize_role`; fails when any permission entry fails
to deserialize. -/
def deserialize_role (data : SerializedRole) : Option Role :=
  match deserialize_permission_list data.permissions with
  | Option.none => Option.none
  | some ps =>
    some { name := data.name
           description := data.description
           permissions := ps
           inherits_from := data.inherits_from
           metadata := data.metadata
           is_system_role := data.is_system_role
           created_at := data.created_at
           updated_at := data.updated_at }

/-! ### JWT key lifecycle, tokens and sessions (`jwt_manager.py`).

Time is `Nat` seconds.  A Redis `setex` entry is modelled by its store time;
a read sees it only while `now` is inside the TTL window.  RSA signatures are
abstracted: a token records the id of the key whose private half signed it
(`signer`), and signature verification against the public key resolved for
the header `kid` succeeds exactly when that key is the signer. -/

/-- `JWTKeyManager.key_rotation_interval` (24 h). -/
def key_rotation_interval : Nat := 86400

/-- `JWTKeyManager.key_retention_period` (48 h). -/
def key_retention_period : Nat := 172800

/-- `UnifiedAuthService.session_timeout` (8 h). -/
def session_timeout : Nat := 28800

/-- `UnifiedAuthService.max_sessions_per_user`. -/
def max_sessions_per_user : Nat := 5

/-- The `jwt:key:{key_id}` region: each stored key with its store time
(`setex` TTL = `key_retention_period`); `read_err` marks a raising `get`. -/
structure KeyStore where
  entries : List (String × Nat)
  read_err : String → Bool

/-- Redis `get` on `jwt:key:{key_id}` under `setex` TTL semantics: the
record is visible only while `now` is inside the retention window. -/
def redis_key_get (ks : KeyStore) (key_id : String) (now : Nat) : Option Nat :=
  match ks.entries.lookup key_id with
  | Option.none => Option.none
  | some stored_at => if now < stored_at + key_retention_period then some stored_at else Option.none

/-- `JWTKeyManager.get_public_key`: resolve the (possibly historical) public
key for `key_id`; a store error or an absent/expired record gives `None`.
The PEM text is represented by the key id that identifies it. -/
def get_public_key (ks : KeyStore) (key_id : String) (now : Nat) : Option String :=
  if ks.read_err key_id then Option.none
  else match redis_key_get ks key_id now with
    | Option.none => Option.none
    | some _ => some key_id

/-- A session record as stored under `session:{session_id}` (the fields the
verification and eviction paths read). -/
structure SessionRecord where
  user_id : String
  created_at : Nat
deriving DecidableEq

/-- State reachable from `UnifiedAuthService`: the key region, the
`jwt:current_key` read outcome, the session store, and the issuer string. -/
structure AuthState where
  keys : KeyStore
  current_key : StoreResult (Option String)
  sessions : String → StoreResult (Option SessionRecord)
  issuer : String

/-- `JWTKeyManager._generate_new_key_pair`: store the fresh key under its own
id and make it current (it does not touch older `jwt:key:{id}` records, which
live on until their own TTL elapses). -/
def generate_new_key_pair (st : AuthState) (new_key_id : String) (now : Nat) : AuthState :=
  { st with
    keys := { entries := (new_key_id, now) :: st.keys.entries, read_err := st.keys.read_err }
    current_key := StoreResult.ok (some new_key_id) }

/-- `JWTKeyManager._get_current_key`: store errors are caught and become
`None`. -/
def get_current_key (st : AuthState) : Option String :=
  match st.current_key with
  | StoreResult.err => Option.none
  | StoreResult.ok k => k

/-- The token payload fields the verification path inspects.  `aud` is the
audience claim `create_tokens` always embeds and `jwt.decode` validates;
`[]` stands for an absent or empty claim (both pass PyJWT's check when the
verifier expects no audience). -/
structure TokenPayload where
  sub : String
  iss : String
  aud : List String := []
  exp : Nat
  nbf : Nat
  token_type : String
  session_id : Option String := Option.none
  tenant_id : Option String := Option.none
deriving DecidableEq

/-- A signed JWT: header `kid` (absent models a malformed header), the id of
the signing key (`Option.none` models a garbage signature), and the payload. -/
structure Token where
  kid : Option String
  signer : Option String
  payload : TokenPayload
deriving DecidableEq

/-- The log-only causes distinguished inside `verify_token`. -/
inductive VerifyFailure where
  | missing_key_id | unknown_key | expired | invalid_token | invalid_session
deriving DecidableEq

/-- `UnifiedAuthService._is_session_valid`: `get session:{id}` must return a
record; a store error is caught and counts as invalid. -/
def is_session_valid (st : AuthState) (session_id : String) : Bool :=
  match st.sessions session_id with
  | StoreResult.err => false
  | StoreResult.ok Option.none => false
  | StoreResult.ok (some _) => true

/-- `UnifiedAuthService.verify_token`.  First component: the caller-visible
outcome (`some payload` or the single failure value `Option.none`); second
component: the log-only cause.  The checks mirror the source: header kid,
key resolution, then `jwt.decode`, which verifies the signature and the
claims — expiry, not-before, audience and issuer.  The call site passes no
expected audience, so PyJWT's default `verify_aud` rejects every token
whose `aud` claim is non-empty (`InvalidAudienceError`, a subclass of
`InvalidTokenError`; the relative order among the claim checks does not
affect any property proved below).  Then, when the payload carries a truthy
`session_id`, the session must still exist.  Every failure path, including
the `except` clauses, returns `None` to the caller. -/
def verify_token (st : AuthState) (now : Nat) (token : Token) :
    Option TokenPayload × Option VerifyFailure :=
  match token.kid with
  | Option.none => (Option.none, some VerifyFailure.missing_key_id)
  | some key_id =>
    match get_public_key st.keys key_id now with
    | Option.none => (Option.none, some VerifyFailure.unknown_key)
    | some public_key =>
      if token.signer != some public_key then
        (Option.none, some VerifyFailure.invalid_token)
      else if token.payload.exp < now then
        (Option.none, some VerifyFailure.expired)
      else if now < token.payload.nbf then
        (Option.none, some VerifyFailure.invalid_token)
      else if !token.payload.aud.isEmpty then
        (Option.none, some VerifyFailure.invalid_token)
      else if token.payload.iss != st.issuer then
        (Option.none, some VerifyFailure.invalid_token)
      else
        match token.payload.session_id with
        | some session_id =>
          if !session_id.isEmpty then
            if is_session_valid st session_id then (some token.payload, Option.none)
            else (Option.none, some VerifyFailure.invalid_session)
          else (some token.payload, Option.none)
        | Option.none => (some token.payload, Option.none)

/-- The dictionary returned by `create_tokens` (token strings are carried as
the signed tokens themselves). -/
structure IssuedTokens where
  access_token : Token
  refresh_token : Token
  session_id : String
deriving DecidableEq

/-- `UnifiedAuthService.create_tokens`: fails (raises) when no current
signing key is available; otherwise signs an access token (15 min) and a
refresh token (7 days) with the current key, sharing one fresh session id.
Both carry the audience claim `audience or ["api"]` (`[]` models a `None`
argument).  The fresh `session_id` (a UUID in the source) is a parameter. -/
def create_tokens (st : AuthState) (user_id : String) (tenant_id : String)
    (session_id : String) (audience : List String) (now : Nat) :
    Except String IssuedTokens :=
  match get_current_key st with
  | Option.none => Except.error "No signing key available"
  | some key_id =>
    let aud_claim : List String := if audience.isEmpty then ["api"] else audience
    let opt_tenant : Option String := if tenant_id.isEmpty then Option.none else some tenant_id
    let opt_session : Option String := if session_id.isEmpty then Option.none else some session_id
    let access_payload : TokenPayload :=
      { sub := user_id, iss := st.issuer, aud := aud_claim, exp := now + 900, nbf := now,
        token_type := "access", session_id := opt_session, tenant_id := opt_tenant }
    let refresh_payload : TokenPayload :=
      { sub := user_id, iss := st.issuer, aud := aud_claim, exp := now + 604800, nbf := now,
        token_type := "refresh", session_id := opt_session, tenant_id := opt_tenant }
    Except.ok
      { access_token := { kid := some key_id, signer := some key_id, payload := access_payload }
        refresh_token := { kid := some key_id, signer := some key_id, payload := refresh_payload }
        session_id := session_id }

/-- The text an f-string renders for a `bytes` value: `repr` of the bytes,
`b'...'` around the decoded id (no escapes occur in the ids at hand).  The
Redis client is built by `redis.from_url` without `decode_responses`, so
`smembers` hands `_enforce_session_limits` bytes members, and
`f"session:{session_id}"` embeds this rendering into the lookup key. -/
def bytes_repr (s : String) : String := "b'" ++ s ++ "'"

/-- `UnifiedAuthService._enforce_session_limits`, as the list of session ids
it revokes: when the active-session set exceeds the cap, pair each member
whose lookup still returns a record with its `created_at`, sort ascending by
creation time (Python's stable sort; ISO timestamps compare
chronologically), and revoke everything before the last
`max_sessions_per_user` entries.  The store is keyed by the session id as
`_store_session` wrote it (`session:{uuid-string}`, prefix folded away);
the per-member lookup, however, is made under the f-string rendering of the
bytes member, `bytes_repr sid`. -/
def enforce_session_limits (session_ids : List String)
    (store : String → Option SessionRecord) : List String :=
  if max_sessions_per_user < session_ids.length then
    let session_times := session_ids.filterMap fun sid =>
      (store (bytes_repr sid)).map fun data => (sid, data.created_at)
    let sorted := session_times.mergeSort fun a b => decide (a.2 ≤ b.2)
    (sorted.take (session_times.length - max_sessions_per_user)).map Prod.fst
  else []

/-! ### Derived notions used by the statements -/

/-- One `inherits_from` edge of the stored role graph: `b` is a direct
ancestor of `a`. -/
def inherits_step (store : RBACStore) (a b : String) : Prop :=
  ∃ r, get_role store a = some r ∧ b ∈ r.inherits_from

/-- Creation time of a stored session, when the record exists. -/
def session_created (store : String → Option SessionRecord) (sid : String) : Option Nat :=
  (store sid).map SessionRecord.created_at

/-- The six condition keys `_evaluate_conditions` knows. -/
def known_condition_keys : List String :=
  ["same_tenant", "owner", "owner_or_shared", "shared", "api_access", "advanced_queries"]

/-- The matching rule in the words of the specification: resource type equal;
action equal or the administrative wildcard; `resource_ids`, if present, must
contain the requested `resource_id`; all conditions hold.  (To be compared
with `permission_matches`, which is translated from the source.) -/
def permission_matches_spec (permission : Permission) (resource_type : ResourceType)
    (action : Action) (resource_id : Option String) (context : Context) : Prop :=
  permission.resource_type = resource_type ∧
  (permission.action = action ∨ permission.action = Action.admin) ∧
  (∀ ids, permission.resource_ids = some ids → ∀ r, resource_id = some r → r ∈ ids) ∧
  evaluate_conditions permission.conditions context = true

/-! ### Concrete fixtures for examples and witnesses -/

/-- Role granting `ALLOW(QUERY, READ)` (the spec's role A). -/
def role_a : Role :=
  { name := "role_a", description := "grants query read"
    permissions := [{ resource_type := ResourceType.query, action := Action.read }] }

/-- Role granting `DENY(QUERY, READ)` (the spec's role B). -/
def role_b : Role :=
  { name := "role_b", description := "denies query read"
    permissions := [{ resource_type := ResourceType.query, action := Action.read,
                      effect := Effect.deny }] }

/-- Store for the deny-overrides-allow example: user `u1` holds both
`role_a` and `role_b`, permission cache cold. -/
def c1_store : RBACStore :=
  { roles := [("role_a", role_a), ("role_b", role_b)]
    role_read_err := fun _ => false
    user_roles := fun u => if u == "u1" then StoreResult.ok (some ["role_a", "role_b"])
      else StoreResult.ok Option.none
    user_permissions_cache := fun _ => StoreResult.ok Option.none
    cache_write := StoreResult.ok () }

/-- Distinctive permission of the cyclic-chain role A. -/
def perm_of_a : Permission :=
  { resource_type := ResourceType.query, action := Action.read }

/-- Distinctive permission of the cyclic-chain role B. -/
def perm_of_b : Permission :=
  { resource_type := ResourceType.file, action := Action.update }

/-- Distinctive permission of the cyclic-chain role C. -/
def perm_of_c : Permission :=
  { resource_type := ResourceType.dashboard, action := Action.delete }

/-- Role graph C→B→A with the added back edge A→C (a cycle). -/
def c4_store : RBACStore :=
  { roles :=
      [("chain_a", { name := "chain_a", description := "a",
                     permissions := [perm_of_a], inherits_from := ["chain_c"] }),
       ("chain_b", { name := "chain_b", description := "b",
                     permissions := [perm_of_b], inherits_from := ["chain_a"] }),
       ("chain_c", { name := "chain_c", description := "c",
                     permissions := [perm_of_c], inherits_from := ["chain_b"] })]
    role_read_err := fun _ => false
    user_roles := fun u => if u == "u1" then StoreResult.ok (some ["chain_c"])
      else StoreResult.ok Option.none
    user_permissions_cache := fun _ => StoreResult.ok Option.none
    cache_write := StoreResult.ok () }

/-- Store whose permission-cache read raises on every user. -/
def c8_err_store : RBACStore :=
  { roles := []
    role_read_err := fun _ => false
    user_roles := fun _ => StoreResult.ok Option.none
    user_permissions_cache := fun _ => StoreResult.err
    cache_write := StoreResult.ok () }

/-- Healthy store in which `u1` simply has no roles (ordinary denial). -/
def c8_plain_store : RBACStore :=
  { roles := []
    role_read_err := fun _ => false
    user_roles := fun _ => StoreResult.ok Option.none
    user_permissions_cache := fun _ => StoreResult.ok Option.none
    cache_write := StoreResult.ok () }

/-- A healthy auth state: one current key `k1` stored at time 0, one live
session `s-live`, every other session absent. -/
def auth_fixture : AuthState :=
  { keys := { entries := [("k1", 0)], read_err := fun _ => false }
    current_key := StoreResult.ok (some "k1")
    sessions := fun sid => if sid == "s-live"
      then StoreResult.ok (some { user_id := "u1", created_at := 0 })
      else StoreResult.ok Option.none
    issuer := "https://sql-genius-ai.com" }

/-- A payload that passes every claim check of `verify_token` at time 100
against `auth_fixture`, with a session claim naming a revoked session. -/
def revoked_payload : TokenPayload :=
  { sub := "u1", iss := "https://sql-genius-ai.com", exp := 900, nbf := 0,
    token_type := "access", session_id := some "s-gone" }

/-- A token over `revoked_payload`, correctly signed with `k1`. -/
def revoked_token : Token :=
  { kid := some "k1", signer := some "k1", payload := revoked_payload }

/-- A payload with no session claim that passes every check at time 100. -/
def clean_payload : TokenPayload :=
  { sub := "u1", iss := "https://sql-genius-ai.com", exp := 900, nbf := 0,
    token_type := "access" }

/-- A token over `clean_payload`, correctly signed with `k1`. -/
def clean_token : Token :=
  { kid := some "k1", signer := some "k1", payload := clean_payload }

/-- A long-lived payload carrying the service's default audience claim
`["api"]`, as every issued token does. -/
def c6_payload : TokenPayload :=
  { sub := "u1", iss := "https://sql-genius-ai.com", aud := ["api"],
    exp := 1000000, nbf := 0, token_type := "access" }

/-- A token over `c6_payload` signed with the original key `k1`. -/
def c6_token : Token :=
  { kid := some "k1", signer := some "k1", payload := c6_payload }

/-- The token pair `create_tokens auth_fixture "u1" "t1" "s1" [] 0`
produces: both tokens signed with `k1` and carrying `aud = ["api"]`. -/
def c6_issued : IssuedTokens :=
  { access_token :=
      { kid := some "k1", signer := some "k1"
        payload := { sub := "u1", iss := "https://sql-genius-ai.com",
                     aud := ["api"], exp := 900, nbf := 0,
                     token_type := "access", session_id := some "s1",
                     tenant_id := some "t1" } }
    refresh_token :=
      { kid := some "k1", signer := some "k1"
        payload := { sub := "u1", iss := "https://sql-genius-ai.com",
                     aud := ["api"], exp := 604800, nbf := 0,
                     token_type := "refresh", session_id := some "s1",
                     tenant_id := some "t1" } }
    session_id := "s1" }

/-- Auth state whose current-key read raises. -/
def auth_err_fixture : AuthState :=
  { keys := { entries := [], read_err := fun _ => true }
    current_key := StoreResult.err
    sessions := fun _ => StoreResult.ok Option.none
    issuer := "https://sql-genius-ai.com" }

/-- Six active sessions of one user, with distinct creation times; `sess0`
is the earliest. -/
def six_session_ids : List String :=
  ["sess0", "sess1", "sess2", "sess3", "sess4", "sess5"]

/-- Session store backing `six_session_ids`: `sessN` was created at time
`10 * N + 5`. -/
def six_session_store : String → Option SessionRecord := fun sid =>
  if sid == "sess0" then some { user_id := "u1", created_at := 5 }
  else if sid == "sess1" then some { user_id := "u1", created_at := 15 }
  else if sid == "sess2" then some { user_id := "u1", created_at := 25 }
  else if sid == "sess3" then some { user_id := "u1", created_at := 35 }
  else if sid == "sess4" then some { user_id := "u1", created_at := 45 }
  else if sid == "sess5" then some { user_id := "u1", created_at := 55 }
  else Option.none

/-- Permission with an `"a"`-only allow-list, used for the `resource_ids`
boundary analysis. -/
def listed_permission : Permission :=
  { resource_type := ResourceType.query, action := Action.read,
    resource_ids := some ["a"] }

/-! ### Theorems -/

theorem resourceType_ofVal_val (rt : ResourceType) : ResourceType.ofVal rt.val = some rt := by
  cases rt <;> rfl

theorem action_ofVal_val (a : Action) : Action.ofVal a.val = some a := by
  cases a <;> rfl

theorem effect_ofVal_val (e : Effect) : Effect.ofVal e.val = some e := by
  cases e <;> rfl

theorem deserialize_serialize_permission (p : Permission) :
    deserialize_permission (serialize_permission p) = some p := by
  rcases p with ⟨rt, a, e, conds, rids⟩
  simp [serialize_permission, deserialize_permission,
    resourceType_ofVal_val, action_ofVal_val, effect_ofVal_val]

theorem deserialize_permission_list_map (ps : List Permission) :
    deserialize_permission_list (ps.map serialize_permission) = some ps := by
  induction ps with
  | nil => rfl
  | cons p t ih =>
    simp [List.map_cons, deserialize_permission_list,
      deserialize_serialize_permission, ih]

/-- C10: role and permission serialization round-trip exactly:
`_deserialize_permission ∘ _serialize_permission` and
`_deserialize_role ∘ _serialize_role` are the identity (modulo the success
wrapper) on every permission and every role, including the permission list,
conditions, `resource_ids`, `inherits_from`, metadata, the system-role flag
and both timestamps. -/
theorem C10_serialization_round_trip :
    (∀ p : Permission, deserialize_permission (serialize_permission p) = some p) ∧
    (∀ r : Role, deserialize_role (serialize_role r) = some r) := by
  refine ⟨deserialize_serialize_permission, ?_⟩
  intro r
  rcases r with ⟨n, d, ps, ih, md, sys, ca, ua⟩
  simp [serialize_role, deserialize_role, deserialize_permission_list_map]

/-- C1: for a resolved permission set, `check_permission` is true exactly
when no DENY permission matches (deny checked first and absolute) and some
ALLOW permission matches; otherwise it is false (default-deny).  And in the
concrete two-role store where `u1` holds one role granting
`ALLOW(QUERY, READ)` and one granting `DENY(QUERY, READ)`,
`check_permission` for `(QUERY, READ)` is false. -/
theorem C1_deny_overrides_allow :
    (∀ (permissions : List Permission) (resource_type : ResourceType) (action : Action)
        (resource_id : Option String) (context : Context),
      evaluate_permissions permissions resource_type action resource_id context = true ↔
        ((¬ ∃ p ∈ permissions, p.effect = Effect.deny ∧
            permission_matches p resource_type action resource_id context = true) ∧
          ∃ p ∈ permissions, p.effect = Effect.allow ∧
            permission_matches p resource_type action resource_id context = true)) ∧
    check_permission c1_store "u1" ResourceType.query Action.read Option.none Context.empty
      = false := by
  constructor
  · intro permissions resource_type action resource_id context
    simp only [evaluate_permissions]
    split_ifs with h1 h2
    · simp only [Bool.false_eq_true, false_iff]
      rintro ⟨hno, -⟩
      rw [List.any_eq_true] at h1
      rcases h1 with ⟨p, hpmem, hpm⟩
      rw [List.mem_filter] at hpmem
      exact hno ⟨p, hpmem.1, beq_iff_eq.1 hpmem.2, hpm⟩
    · refine ⟨fun _ => ⟨?_, ?_⟩, fun _ => rfl⟩
      · rintro ⟨p, hpmem, hpd, hpm⟩
        apply h1
        rw [List.any_eq_true]
        exact ⟨p, List.mem_filter.2 ⟨hpmem, beq_iff_eq.2 hpd⟩, hpm⟩
      · rw [List.any_eq_true] at h2
        rcases h2 with ⟨p, hpmem, hpm⟩
        rw [List.mem_filter] at hpmem
        exact ⟨p, hpmem.1, beq_iff_eq.1 hpmem.2, hpm⟩
    · simp only [Bool.false_eq_true, false_iff]
      rintro ⟨-, p, hpmem, hpa, hpm⟩
      apply h2
      rw [List.any_eq_true]
      exact ⟨p, List.mem_filter.2 ⟨hpmem, beq_iff_eq.2 hpa⟩, hpm⟩
  · simp +decide [check_permission, get_user_permissions_impl, c1_store, get_user_roles,
      collect_role_permissions, get_role, role_a, role_b, evaluate_permissions,
      permission_matches, evaluate_conditions, List.lookup]

/-- C3 counterexample: with allow-list `["a"]` present and requested
`resource_id = ""` (an empty, hence Python-falsy, string), the source's
`_permission_matches` matches although the allow-list does not contain the
requested id, so the claimed characterization fails at this input. -/
theorem C3_counterexample :
    permission_matches listed_permission ResourceType.query Action.read
        (some "") Context.empty = true ∧
    ¬ permission_matches_spec listed_permission ResourceType.query Action.read
        (some "") Context.empty := by
  constructor
  · decide
  · rintro ⟨-, -, hids, -⟩
    exact absurd (hids ["a"] rfl "" rfl) (by decide)

theorem resid_guard_iff (rids : Option (List String)) (rid : Option String) :
    (truthyIdList rids && truthyOptStr rid && residNotIn rids rid) = true ↔
      ∃ ids r, rids = some ids ∧ ids ≠ [] ∧ rid = some r ∧ r ≠ "" ∧ r ∉ ids := by
  cases rids with
  | none => simp [truthyIdList]
  | some ids =>
    cases rid with
    | none => simp [truthyIdList, truthyOptStr]
    | some r =>
      simp only [truthyIdList, truthyOptStr, residNotIn, Bool.and_eq_true,
        Bool.not_eq_true', Option.some.injEq]
      constructor
      · rintro ⟨⟨hie, hre⟩, hnc⟩
        refine ⟨ids, r, rfl, ?_, rfl, ?_, ?_⟩
        · intro hnil
          rw [hnil] at hie
          exact absurd hie (by decide)
        · intro hmt
          rw [hmt] at hre
          exact absurd hre (by decide)
        · simp_all
      · rintro ⟨ids2, r2, rfl, hne, rfl, hrne, hnm⟩
        refine ⟨⟨?_, ?_⟩, ?_⟩
        · simp_all
        · cases hie : r.isEmpty with
          | true => exact absurd ((String.isEmpty_iff r).1 hie) hrne
          | false => rfl
        · simp_all

/-- C3 (amended): a permission matches exactly when the resource type is
equal; the action is equal or the administrative wildcard `ADMIN`; whenever
a non-empty `resource_ids` allow-list is present AND a non-empty
`resource_id` is requested, the list contains it (a `None`/empty list or a
`None`/empty requested id disables the allow-list check); and every named
condition evaluates true against the context. -/
theorem C3_matching_rule :
    ∀ (permission : Permission) (resource_type : ResourceType) (action : Action)
      (resource_id : Option String) (context : Context),
      permission_matches permission resource_type action resource_id context = true ↔
        (permission.resource_type = resource_type ∧
         (permission.action = action ∨ permission.action = Action.admin) ∧
         (∀ ids, permission.resource_ids = some ids → ids ≠ [] →
            ∀ r, resource_id = some r → r ≠ "" → r ∈ ids) ∧
         evaluate_conditions permission.conditions context = true) := by
  intro p resource_type action resource_id context
  simp only [permission_matches]
  split_ifs with h1 h2 h3
  · simp only [Bool.false_eq_true, false_iff]
    rintro ⟨he, -⟩
    exact bne_iff_ne.1 h1 he
  · simp only [Bool.false_eq_true, false_iff]
    rintro ⟨-, ha, -⟩
    rw [Bool.and_eq_true, bne_iff_ne, bne_iff_ne] at h2
    rcases ha with ha | ha
    · exact h2.1 ha
    · exact h2.2 ha
  · simp only [Bool.false_eq_true, false_iff]
    rintro ⟨-, -, hres, -⟩
    obtain ⟨ids, r, hido, hne, hrido, hrne, hnm⟩ := (resid_guard_iff _ _).1 h3
    exact hnm (hres ids hido hne r hrido hrne)
  · have he : p.resource_type = resource_type := by
      by_contra hne
      exact h1 (bne_iff_ne.2 hne)
    have hact : p.action = action ∨ p.action = Action.admin := by
      by_contra hno
      rw [not_or] at hno
      exact h2 (by rw [Bool.and_eq_true, bne_iff_ne, bne_iff_ne]; exact hno)
    constructor
    · intro hcond
      refine ⟨he, hact, ?_, hcond⟩
      intro ids hido hne r hrido hrne
      by_contra hnm
      exact h3 ((resid_guard_iff _ _).2 ⟨ids, r, hido, hne, hrido, hrne, hnm⟩)
    · rintro ⟨-, -, -, hcond⟩
      exact hcond

theorem condition_holds_inert {key : String} {v : PyVal}
    (h : key ∉ known_condition_keys ∨ v.truthy = false) (context : Context) :
    condition_holds context key v = true := by
  rcases h with hk | hv
  · simp only [known_condition_keys, List.mem_cons, List.not_mem_nil, or_false,
      not_or] at hk
    obtain ⟨h1, h2, h3, h4, h5, h6⟩ := hk
    simp [condition_holds, beq_eq_false_iff_ne.2 h1, beq_eq_false_iff_ne.2 h2,
      beq_eq_false_iff_ne.2 h3, beq_eq_false_iff_ne.2 h4, beq_eq_false_iff_ne.2 h5,
      beq_eq_false_iff_ne.2 h6]
  · unfold condition_holds
    split_ifs <;> simp [hv]

/-- C9: only the six named condition kinds with a truthy expected value ever
restrict a match: an entry with an unknown key, or with a Python-falsy
value, can be deleted from a permission's condition dictionary without
changing `_permission_matches` on any request. -/
theorem C9_inert_condition_entries :
    ∀ (permission : Permission) (resource_type : ResourceType) (action : Action)
      (resource_id : Option String) (context : Context)
      (pre post : List (String × PyVal)) (key : String) (v : PyVal),
      (key ∉ known_condition_keys ∨ v.truthy = false) →
      permission_matches { permission with conditions := pre ++ (key, v) :: post }
          resource_type action resource_id context =
        permission_matches { permission with conditions := pre ++ post }
          resource_type action resource_id context := by
  intro p resource_type action resource_id context pre post key v h
  rcases p with ⟨prt, pa, pe, pc, pri⟩
  have hcond : evaluate_conditions (pre ++ (key, v) :: post) context =
      evaluate_conditions (pre ++ post) context := by
    simp [evaluate_conditions, List.all_append, List.all_cons,
      condition_holds_inert h context]
  simp only [permission_matches]
  rw [hcond]

/-- C9 witness at a concrete input: a `("made_up_key", true)` entry imposes
no restriction. -/
theorem C9_witness :
    permission_matches { listed_permission with conditions := [("made_up_key", PyVal.bool true)] }
        ResourceType.query Action.read Option.none Context.empty =
      permission_matches { listed_permission with conditions := [] }
        ResourceType.query Action.read Option.none Context.empty :=
  C9_inert_condition_entries listed_permission ResourceType.query Action.read Option.none
    Context.empty [] [] "made_up_key" (PyVal.bool true) (Or.inl (by decide))

theorem get_public_key_some {ks : KeyStore} {key_id pk : String} {now : Nat}
    (h : get_public_key ks key_id now = some pk) : pk = key_id := by
  unfold get_public_key at h
  split_ifs at h with herr
  cases hr : redis_key_get ks key_id now with
  | none => rw [hr] at h; simp at h
  | some t =>
    rw [hr] at h
    simp only [Option.some.injEq] at h
    exact h.symm

theorem verify_token_kid_none {st : AuthState} {now : Nat} {token : Token}
    (h : token.kid = Option.none) :
    verify_token st now token = (Option.none, some VerifyFailure.missing_key_id) := by
  unfold verify_token
  rw [h]

theorem verify_token_key_unresolved {st : AuthState} {now : Nat} {token : Token}
    {key_id : String} (hk : token.kid = some key_id)
    (h : get_public_key st.keys key_id now = Option.none) :
    verify_token st now token = (Option.none, some VerifyFailure.unknown_key) := by
  unfold verify_token
  rw [hk]
  simp only [h]

theorem verify_token_checks {st : AuthState} {now : Nat} {token : Token}
    {key_id : String} (hk : token.kid = some key_id)
    (hpk : get_public_key st.keys key_id now = some key_id) :
    verify_token st now token =
      (if token.signer != some key_id then (Option.none, some VerifyFailure.invalid_token)
       else if token.payload.exp < now then (Option.none, some VerifyFailure.expired)
       else if now < token.payload.nbf then (Option.none, some VerifyFailure.invalid_token)
       else if !token.payload.aud.isEmpty then (Option.none, some VerifyFailure.invalid_token)
       else if token.payload.iss != st.issuer then (Option.none, some VerifyFailure.invalid_token)
       else match token.payload.session_id with
         | some session_id =>
           if !session_id.isEmpty then
             if is_session_valid st session_id then (some token.payload, Option.none)
             else (Option.none, some VerifyFailure.invalid_session)
           else (some token.payload, Option.none)
         | Option.none => (some token.payload, Option.none)) := by
  unfold verify_token
  rw [hk]
  simp only [hpk]

theorem verify_token_success {st : AuthState} {now : Nat} {token : Token}
    {key_id : String} (hkid : token.kid = some key_id)
    (hpk : get_public_key st.keys key_id now = some key_id)
    (hsig : token.signer = some key_id)
    (hexp : ¬ token.payload.exp < now)
    (hnbf : ¬ now < token.payload.nbf)
    (haud : token.payload.aud = [])
    (hiss : token.payload.iss = st.issuer)
    (hsess : ∀ sid, token.payload.session_id = some sid → sid ≠ "" →
      is_session_valid st sid = true) :
    (verify_token st now token).1 = some token.payload := by
  rw [verify_token_checks hkid hpk]
  rw [if_neg (by simp [hsig]), if_neg hexp, if_neg hnbf, if_neg (by simp [haud]),
    if_neg (by simp [hiss])]
  cases hsid : token.payload.session_id with
  | none => rfl
  | some sid =>
    by_cases hmt : sid.isEmpty = true
    · simp [hmt]
    · have hne : sid ≠ "" := by
        intro hz
        rw [hz] at hmt
        exact hmt rfl
      simp [hmt, hsess sid hsid hne]

theorem verify_token_success_facts {st : AuthState} {now : Nat} {token : Token}
    {p : TokenPayload} (h : (verify_token st now token).1 = some p) :
    p = token.payload ∧ ∃ key_id, token.kid = some key_id ∧
      get_public_key st.keys key_id now = some key_id ∧
      token.signer = some key_id ∧ ¬ token.payload.exp < now ∧
      ¬ now < token.payload.nbf ∧ token.payload.aud = [] ∧
      token.payload.iss = st.issuer ∧
      (∀ sid, token.payload.session_id = some sid → sid ≠ "" →
        is_session_valid st sid = true) := by
  cases hkid : token.kid with
  | none =>
    rw [verify_token_kid_none hkid] at h
    exact absurd h (by simp)
  | some key_id =>
    cases hpk : get_public_key st.keys key_id now with
    | none =>
      rw [verify_token_key_unresolved hkid hpk] at h
      exact absurd h (by simp)
    | some pk =>
      obtain rfl : pk = key_id := get_public_key_some hpk
      rw [verify_token_checks hkid hpk] at h
      by_cases hsig : token.signer = some pk
      case neg =>
        rw [if_pos (by simp [bne_iff_ne, hsig])] at h
        exact absurd h (by simp)
      case pos =>
        rw [if_neg (by simp [hsig])] at h
        by_cases hexp : token.payload.exp < now
        · rw [if_pos hexp] at h
          exact absurd h (by simp)
        · rw [if_neg hexp] at h
          by_cases hnbf : now < token.payload.nbf
          · rw [if_pos hnbf] at h
            exact absurd h (by simp)
          · rw [if_neg hnbf] at h
            by_cases haud : token.payload.aud = []
            case neg =>
              rw [if_pos (by simp [haud])] at h
              exact absurd h (by simp)
            case pos =>
            rw [if_neg (by simp [haud])] at h
            by_cases hiss : token.payload.iss = st.issuer
            · rw [if_neg (by simp [hiss])] at h
              refine ⟨?_, pk, rfl, hpk, hsig, hexp, hnbf, haud, hiss, ?_⟩
              · cases hsid : token.payload.session_id with
                | none =>
                  rw [hsid] at h
                  have h2 : token.payload = p := by simpa using h
                  exact h2.symm
                | some sid =>
                  rw [hsid] at h
                  by_cases hmt : sid.isEmpty = true
                  · have h2 : token.payload = p := by simpa [hmt] using h
                    exact h2.symm
                  · by_cases hval : is_session_valid st sid = true
                    · have h2 : token.payload = p := by simpa [hmt, hval] using h
                      exact h2.symm
                    · exact absurd (by simpa [hmt, hval] using h : False) id
              · intro sid2 hs2 hne2
                rw [hs2] at h
                by_cases hmt : sid2.isEmpty = true
                · exact absurd ((String.isEmpty_iff sid2).1 hmt) hne2
                · by_cases hval : is_session_valid st sid2 = true
                  · exact hval
                  · exact absurd (by simpa [hmt, hval] using h : False) id
            · rw [if_pos (by simp [bne_iff_ne, hiss])] at h
              exact absurd h (by simp)

theorem verify_token_aud_nonempty_invalid (st : AuthState) (now : Nat) (token : Token)
    (h : token.payload.aud ≠ []) : (verify_token st now token).1 = Option.none := by
  cases hres : (verify_token st now token).1 with
  | none => rfl
  | some p =>
    obtain ⟨-, k, -, -, -, -, -, haud, -⟩ := verify_token_success_facts hres
    exact absurd haud h

/-- C2: a cryptographically valid, unexpired token that carries a
`session_id` claim is rejected by `verify_token` when that session is no
longer in the store — revocation wins even before the token's stated
expiry; when the token additionally carries no audience claim (so the
session check is what fires), the log cause is the invalid-session one. -/
theorem C2_revoked_session_rejected :
    ∀ (st : AuthState) (now : Nat) (token : Token) (key_id sid : String),
      token.kid = some key_id →
      get_public_key st.keys key_id now = some key_id →
      token.signer = some key_id →
      now < token.payload.exp →
      token.payload.nbf ≤ now →
      token.payload.iss = st.issuer →
      token.payload.session_id = some sid →
      sid ≠ "" →
      st.sessions sid = StoreResult.ok Option.none →
      (verify_token st now token).1 = Option.none ∧
      (token.payload.aud = [] →
        (verify_token st now token).2 = some VerifyFailure.invalid_session) := by
  intro st now token key_id sid hkid hpk hsig hexp hnbf hiss hsid hne hrev
  have h1 : (token.signer != some key_id) = false := by simp [hsig]
  have h2 : ¬ token.payload.exp < now := by omega
  have h3 : ¬ now < token.payload.nbf := by omega
  have h4 : (token.payload.iss != st.issuer) = false := by simp [hiss]
  have h5 : is_session_valid st sid = false := by simp [is_session_valid, hrev]
  have h6 : sid.isEmpty = false := by
    cases hie : sid.isEmpty with
    | true => exact absurd ((String.isEmpty_iff sid).1 hie) hne
    | false => rfl
  constructor
  · by_cases haud : token.payload.aud = []
    · unfold verify_token
      simp [hkid, hpk, h1, h2, h3, h4, hsid, h5, h6, haud]
    · exact verify_token_aud_nonempty_invalid st now token haud
  · intro haud
    unfold verify_token
    simp [hkid, hpk, h1, h2, h3, h4, hsid, h5, h6, haud]

/-- C2 witness: at time 100 the fixture's correctly signed, unexpired,
audience-free token naming the revoked session `s-gone` is rejected. -/
theorem C2_witness :
    (verify_token auth_fixture 100 revoked_token).1 = Option.none ∧
    (revoked_token.payload.aud = [] →
      (verify_token auth_fixture 100 revoked_token).2 =
        some VerifyFailure.invalid_session) :=
  C2_revoked_session_rejected auth_fixture 100 revoked_token "k1" "s-gone"
    rfl (by decide) rfl (by decide) (by decide) rfl rfl (by decide) (by decide)

/-- C7: `verify_token` never raises (it is a total function into an option
pair) and collapses every failure mode — missing key id header, unresolvable
key id, expired token, bad signature, wrong issuer, revoked session — into
the one caller-visible outcome `None`; the caller sees either `None` or the
verified payload, nothing else. -/
theorem C7_uniform_invalid_outcome :
    ∀ (st : AuthState) (now : Nat) (token : Token),
      ((verify_token st now token).1 = Option.none ∨
        (verify_token st now token).1 = some token.payload) ∧
      (token.kid = Option.none → (verify_token st now token).1 = Option.none) ∧
      (∀ key_id, token.kid = some key_id →
        get_public_key st.keys key_id now = Option.none →
        (verify_token st now token).1 = Option.none) ∧
      (token.payload.exp < now → (verify_token st now token).1 = Option.none) ∧
      (token.signer ≠ token.kid → (verify_token st now token).1 = Option.none) ∧
      (token.payload.iss ≠ st.issuer → (verify_token st now token).1 = Option.none) ∧
      (∀ sid, token.payload.session_id = some sid → sid ≠ "" →
        is_session_valid st sid = false →
        (verify_token st now token).1 = Option.none) := by
  intro st now token
  refine ⟨?_, ?_, ?_, ?_, ?_, ?_, ?_⟩
  · cases hres : (verify_token st now token).1 with
    | none => exact Or.inl rfl
    | some p =>
      obtain ⟨hp, -⟩ := verify_token_success_facts hres
      exact Or.inr (by rw [hp])
  · intro hk
    cases hres : (verify_token st now token).1 with
    | none => rfl
    | some p =>
      obtain ⟨-, k, hk2, -⟩ := verify_token_success_facts hres
      rw [hk] at hk2
      exact absurd hk2 (by simp)
  · intro key_id hk h0
    cases hres : (verify_token st now token).1 with
    | none => rfl
    | some p =>
      obtain ⟨-, k, hk2, hpk2, -⟩ := verify_token_success_facts hres
      rw [hk] at hk2
      simp only [Option.some.injEq] at hk2
      rw [← hk2] at hpk2
      rw [h0] at hpk2
      exact absurd hpk2 (by simp)
  · intro hexp
    cases hres : (verify_token st now token).1 with
    | none => rfl
    | some p =>
      obtain ⟨-, k, -, -, -, hexp2, -⟩ := verify_token_success_facts hres
      exact absurd hexp hexp2
  · intro hsgn
    cases hres : (verify_token st now token).1 with
    | none => rfl
    | some p =>
      obtain ⟨-, k, hk2, -, hsig2, -⟩ := verify_token_success_facts hres
      exact absurd (hsig2.trans hk2.symm) hsgn
  · intro hiss
    cases hres : (verify_token st now token).1 with
    | none => rfl
    | some p =>
      obtain ⟨-, k, -, -, -, -, -, -, hiss2, -⟩ := verify_token_success_facts hres
      exact absurd hiss2 hiss
  · intro sid hsid hne hval
    cases hres : (verify_token st now token).1 with
    | none => rfl
    | some p =>
      obtain ⟨-, k, -, -, -, -, -, -, -, hsess2⟩ := verify_token_success_facts hres
      have := hsess2 sid hsid hne
      rw [hval] at this
      exact absurd this (by simp)

/-- C7 witness: each of the six failure modes, at a concrete state and
token, yields the same caller-visible `None`. -/
theorem C7_witness :
    (verify_token auth_fixture 100 { clean_token with kid := Option.none }).1
      = Option.none ∧
    (verify_token auth_fixture 100 { clean_token with kid := some "nope" }).1
      = Option.none ∧
    (verify_token auth_fixture 2000 clean_token).1 = Option.none ∧
    (verify_token auth_fixture 100 { clean_token with signer := some "other" }).1
      = Option.none ∧
    (verify_token auth_fixture 100
      { clean_token with payload := { clean_payload with iss := "https://evil.example" } }).1
      = Option.none ∧
    (verify_token auth_fixture 100 revoked_token).1 = Option.none :=
  ⟨(C7_uniform_invalid_outcome auth_fixture 100 _).2.1 rfl,
   (C7_uniform_invalid_outcome auth_fixture 100 _).2.2.1 "nope" rfl (by decide),
   (C7_uniform_invalid_outcome auth_fixture 2000 _).2.2.2.1 (by decide),
   (C7_uniform_invalid_outcome auth_fixture 100 _).2.2.2.2.1 (by decide),
   (C7_uniform_invalid_outcome auth_fixture 100 _).2.2.2.2.2.1 (by decide),
   (C7_uniform_invalid_outcome auth_fixture 100 _).2.2.2.2.2.2 "s-gone" rfl
     (by decide) (by decide)⟩

/-- C6 (code bug): the retention mechanics are right — rotation leaves the
old `jwt:key:{id}` record in place until its own TTL elapses, and after the
window the failure is the unknown-key outcome, an ordinary `None` return
rather than an exception — but the claimed in-window success is false of
the program: `create_tokens` embeds the non-empty audience claim
`audience or ["api"]` in every token it signs, while `verify_token` calls
`jwt.decode` with no expected audience, so PyJWT's default audience
validation rejects every service-signed token and verification returns
`None` even while the signing key sits inside its retention window. -/
theorem C6_audience_validation_bug :
    (∀ (st : AuthState) (user_id tenant_id session_id : String)
        (audience : List String) (now : Nat) (tokens : IssuedTokens),
      create_tokens st user_id tenant_id session_id audience now = Except.ok tokens →
        tokens.access_token.payload.aud ≠ [] ∧
        tokens.refresh_token.payload.aud ≠ []) ∧
    (∀ (st : AuthState) (now : Nat) (token : Token),
      token.payload.aud ≠ [] → (verify_token st now token).1 = Option.none) ∧
    (∀ (st : AuthState) (old_key new_key : String) (t0 t1 now : Nat) (token : Token),
      st.keys.entries.lookup old_key = some t0 →
      st.keys.read_err old_key = false →
      new_key ≠ old_key →
      token.kid = some old_key →
      t0 + key_retention_period ≤ now →
      verify_token (generate_new_key_pair st new_key t1) now token =
        (Option.none, some VerifyFailure.unknown_key)) := by
  refine ⟨?_, verify_token_aud_nonempty_invalid, ?_⟩
  · intro st user_id tenant_id session_id audience now tokens h
    unfold create_tokens at h
    cases hc : get_current_key st with
    | none =>
      rw [hc] at h
      exact absurd h (by simp)
    | some key_id =>
      rw [hc] at h
      simp only [Except.ok.injEq] at h
      have haud : (if audience.isEmpty then ["api"] else audience) ≠ ([] : List String) := by
        by_cases he : audience.isEmpty = true
        · rw [if_pos he]
          simp
        · rw [if_neg he]
          intro hnil
          rw [hnil] at he
          exact he rfl
      subst h
      exact ⟨haud, haud⟩
  · intro st old_key new_key t0 t1 now token hlk herr hne hkid hout
    have hlk2 : (generate_new_key_pair st new_key t1).keys.entries.lookup old_key
        = some t0 := by
      simp only [generate_new_key_pair]
      rw [List.lookup]
      simp [beq_eq_false_iff_ne.2 (Ne.symm hne), hlk]
    have herr2 : (generate_new_key_pair st new_key t1).keys.read_err old_key = false := by
      simpa [generate_new_key_pair] using herr
    have hnw : ¬ now < t0 + key_retention_period := by omega
    have hpk : get_public_key (generate_new_key_pair st new_key t1).keys old_key now
        = Option.none := by
      simp [get_public_key, redis_key_get, hlk2, herr2, hnw]
    exact verify_token_key_unresolved hkid hpk

/-- C6 witness at the failing input: tokens issued with the default
audience; key `k1` stored at 0, rotation to `k2` at 86400.  Inside the
retention window (now = 100000 < 172800) verification of the `k1`-signed
token already returns `None`; after the window (now = 200000) the failure
is the unknown-key outcome. -/
theorem C6_bug_witness :
    create_tokens auth_fixture "u1" "t1" "s1" [] 0 = Except.ok c6_issued ∧
    c6_issued.access_token.payload.aud ≠ [] ∧
    (verify_token (generate_new_key_pair auth_fixture "k2" 86400) 100000 c6_token).1
      = Option.none ∧
    verify_token (generate_new_key_pair auth_fixture "k2" 86400) 200000 c6_token
      = (Option.none, some VerifyFailure.unknown_key) := by
  refine ⟨rfl, ?_, ?_, ?_⟩
  · exact (C6_audience_validation_bug.1 auth_fixture "u1" "t1" "s1" [] 0 c6_issued rfl).1
  · exact C6_audience_validation_bug.2.1 _ 100000 c6_token (by decide)
  · exact C6_audience_validation_bug.2.2 auth_fixture "k1" "k2" 0 86400 200000 c6_token
      (by decide) rfl (by decide) rfl (by decide)

/-- C8 counterexample: a store error during a permission check is swallowed
into the same `false` that an ordinary denial produces — with the
permission-cache read raising, `check_permission` returns `false`, exactly
the value returned for a user with no roles in a healthy store, so the
caller cannot distinguish a failed check from an ordinary denial. -/
theorem C8_counterexample :
    check_permission c8_err_store "u1" ResourceType.query Action.read
        Option.none Context.empty = false ∧
    check_permission c8_plain_store "u1" ResourceType.query Action.read
        Option.none Context.empty = false ∧
    check_permission c8_err_store "u1" ResourceType.query Action.read
        Option.none Context.empty =
      check_permission c8_plain_store "u1" ResourceType.query Action.read
        Option.none Context.empty := by
  refine ⟨?_, ?_, ?_⟩
  · simp [check_permission, get_user_permissions_impl, c8_err_store,
      evaluate_permissions]
  · simp [check_permission, get_user_permissions_impl, c8_plain_store,
      get_user_roles, collect_role_permissions, evaluate_permissions]
  · simp [check_permission, get_user_permissions_impl, c8_err_store, c8_plain_store,
      get_user_roles, collect_role_permissions, evaluate_permissions]

/-- C8 (amended): store errors on the issuance path propagate —
`create_tokens` raises ("No signing key available") when the current-key
read fails; on the verification path they surface as the uniform
invalid-token outcome; but on the permission-check path `check_permission`
swallows a store error into default-deny `false`, indistinguishable from an
ordinary denial (fail-closed, logged only). -/
theorem C8_store_error_paths :
    (∀ (st : AuthState) (user_id tenant_id session_id : String)
        (audience : List String) (now : Nat),
      st.current_key = StoreResult.err →
      create_tokens st user_id tenant_id session_id audience now =
        Except.error "No signing key available") ∧
    (∀ (st : AuthState) (now : Nat) (token : Token) (key_id : String),
      token.kid = some key_id → st.keys.read_err key_id = true →
      (verify_token st now token).1 = Option.none) ∧
    (∀ (store : RBACStore) (user_id : String) (resource_type : ResourceType)
        (action : Action) (resource_id : Option String) (context : Context),
      store.user_permissions_cache user_id = StoreResult.err →
      check_permission store user_id resource_type action resource_id context
        = false) := by
  refine ⟨?_, ?_, ?_⟩
  · intro st user_id tenant_id session_id audience now h
    simp [create_tokens, get_current_key, h]
  · intro st now token key_id hkid herr
    have hpk : get_public_key st.keys key_id now = Option.none := by
      simp [get_public_key, herr]
    rw [verify_token_key_unresolved hkid hpk]
  · intro store user_id resource_type action resource_id context hcache
    simp [check_permission, get_user_permissions_impl, hcache,
      evaluate_permissions]

/-- C8 witness: the three store-error paths at concrete states. -/
theorem C8_witness :
    create_tokens auth_err_fixture "u1" "t1" "s1" [] 0 =
      Except.error "No signing key available" ∧
    (verify_token auth_err_fixture 0 clean_token).1 = Option.none ∧
    check_permission c8_err_store "u2" ResourceType.file Action.read
      Option.none Context.empty = false :=
  ⟨C8_store_error_paths.1 auth_err_fixture "u1" "t1" "s1" [] 0 rfl,
   C8_store_error_paths.2.1 auth_err_fixture 0 clean_token "k1" rfl rfl,
   C8_store_error_paths.2.2 c8_err_store "u2" ResourceType.file Action.read
     Option.none Context.empty rfl⟩

theorem filterMap_eq_nil_of_none {α β : Type} {f : α → Option β} :
    ∀ l : List α, (∀ x ∈ l, f x = Option.none) → l.filterMap f = [] := by
  intro l h
  induction l with
  | nil => rfl
  | cons a t ih =>
    rw [List.filterMap_cons, h a (List.mem_cons_self _ _)]
    exact ih fun x hx => h x (List.mem_cons_of_mem _ hx)

/-- C5 (code bug): the eviction the claim describes never happens.
`smembers` returns bytes members, so the lookup key
`f"session:{session_id}"` renders as `session:b'...'` and never matches any
key `_store_session` wrote; `session_times` is always empty,
`session_times[:-5]` is empty, and `_enforce_session_limits` revokes
nothing however many live sessions the user has.  Formally: whenever the
store holds no record under the mangled `b'...'` keys — true of the real
system, whose session ids are plain UUID strings — enforcement returns the
empty eviction list. -/
theorem C5_bytes_key_no_eviction :
    ∀ (session_ids : List String) (store : String → Option SessionRecord),
      (∀ sid ∈ session_ids, store (bytes_repr sid) = Option.none) →
      enforce_session_limits session_ids store = [] := by
  intro session_ids store h
  unfold enforce_session_limits
  split_ifs with hlen
  · have hempty : session_ids.filterMap
        (fun sid => (store (bytes_repr sid)).map fun data => (sid, data.created_at))
        = [] :=
      filterMap_eq_nil_of_none session_ids fun x hx => by rw [h x hx]; rfl
    simp only [hempty]
    have hms : (([] : List (String × Nat)).mergeSort fun a b => decide (a.2 ≤ b.2)) = [] :=
      (List.mergeSort_perm [] _).eq_nil
    simp [hms]
  · rfl

/-- C5 witness at the failing input: six live sessions of one user, count
above the cap of five, `sess0` the earliest-created — and the enforcement
still evicts nothing; in particular it does not evict `sess0`. -/
theorem C5_bug_witness :
    enforce_session_limits six_session_ids six_session_store = [] ∧
    enforce_session_limits six_session_ids six_session_store ≠ ["sess0"] := by
  have h := C5_bytes_key_no_eviction six_session_ids six_session_store (by decide)
  refine ⟨h, ?_⟩
  rw [h]
  decide

theorem collect_nil (store : RBACStore) (p : List Permission) (processed : List String) :
    collect_role_permissions store [] p processed = (p, processed) := by
  rw [collect_role_permissions.eq_def]

theorem collect_skip (store : RBACStore) (n : String) (rest : List String)
    (p : List Permission) (processed : List String)
    (h : processed.contains n = true) :
    collect_role_permissions store (n :: rest) p processed =
      collect_role_permissions store rest p processed := by
  conv_lhs => rw [collect_role_permissions.eq_def]
  simp only []
  rw [dif_pos h]

theorem collect_miss (store : RBACStore) (n : String) (rest : List String)
    (p : List Permission) (processed : List String)
    (h : ¬ processed.contains n = true) (hrole : get_role store n = Option.none) :
    collect_role_permissions store (n :: rest) p processed =
      collect_role_permissions store rest p (n :: processed) := by
  conv_lhs => rw [collect_role_permissions.eq_def]
  simp only []
  rw [dif_neg h]
  split
  · rfl
  · next role heq =>
    rw [hrole] at heq
    exact absurd heq (by simp)

theorem collect_found (store : RBACStore) (n : String) (rest : List String)
    (p : List Permission) (processed : List String) (r : Role)
    (h : ¬ processed.contains n = true) (hrole : get_role store n = some r) :
    collect_role_permissions store (n :: rest) p processed =
      collect_role_permissions store (r.inherits_from ++ rest) (p ++ r.permissions)
        (n :: processed) := by
  conv_lhs => rw [collect_role_permissions.eq_def]
  simp only []
  rw [dif_neg h]
  split
  · next heq =>
    rw [hrole] at heq
    exact absurd heq (by simp)
  · next role heq =>
    rw [hrole] at heq
    injection heq with h2
    subst h2
    rfl

theorem collect_spec (store : RBACStore) :
    ∀ (worklist : List String) (permissions : List Permission) (processed : List String),
    ∃ fresh : List String,
      (collect_role_permissions store worklist permissions processed).2
        = fresh ++ processed ∧
      (∀ n ∈ fresh, n ∉ processed) ∧ fresh.Nodup ∧
      (collect_role_permissions store worklist permissions processed).1 =
        permissions ++
          ((fresh.reverse.filterMap (get_role store)).map Role.permissions).flatten := by
  refine collect_role_permissions.induct store
    (motive := fun worklist permissions processed =>
      ∃ fresh : List String,
        (collect_role_permissions store worklist permissions processed).2
          = fresh ++ processed ∧
        (∀ n ∈ fresh, n ∉ processed) ∧ fresh.Nodup ∧
        (collect_role_permissions store worklist permissions processed).1 =
          permissions ++
            ((fresh.reverse.filterMap (get_role store)).map Role.permissions).flatten)
    ?_ ?_ ?_ ?_
  · intro permissions processed
    refine ⟨[], ?_, by simp, by simp, ?_⟩
    · rw [collect_nil]
      simp
    · rw [collect_nil]
      simp
  · intro permissions processed n rest hmem ih
    rw [collect_skip store n rest permissions processed hmem]
    exact ih
  · intro permissions processed n rest hmem hrole ih
    rw [collect_miss store n rest permissions processed hmem hrole]
    obtain ⟨fresh, h2, hnotin, hnd, h1⟩ := ih
    have hn : n ∉ processed := by simpa using hmem
    refine ⟨fresh ++ [n], ?_, ?_, ?_, ?_⟩
    · rw [h2]
      simp
    · intro x hx
      rcases List.mem_append.1 hx with hx | hx
      · have := hnotin x hx
        simp only [List.mem_cons, not_or] at this
        exact this.2
      · simp only [List.mem_singleton] at hx
        subst hx
        exact hn
    · rw [List.nodup_append]
      refine ⟨hnd, by simp, ?_⟩
      intro x hx hx2
      simp only [List.mem_singleton] at hx2
      subst hx2
      have := hnotin x hx
      simp at this
    · rw [h1]
      simp [List.filterMap_cons, hrole]
  · intro permissions processed n rest hmem r hrole ih
    rw [collect_found store n rest permissions processed r hmem hrole]
    obtain ⟨fresh, h2, hnotin, hnd, h1⟩ := ih
    have hn : n ∉ processed := by simpa using hmem
    refine ⟨fresh ++ [n], ?_, ?_, ?_, ?_⟩
    · rw [h2]
      simp
    · intro x hx
      rcases List.mem_append.1 hx with hx | hx
      · have := hnotin x hx
        simp only [List.mem_cons, not_or] at this
        exact this.2
      · simp only [List.mem_singleton] at hx
        subst hx
        exact hn
    · rw [List.nodup_append]
      refine ⟨hnd, by simp, ?_⟩
      intro x hx hx2
      simp only [List.mem_singleton] at hx2
      subst hx2
      have := hnotin x hx
      simp at this
    · rw [h1]
      simp [List.filterMap_cons, hrole, List.append_assoc]

theorem collect_sound (store : RBACStore) :
    ∀ (worklist : List String) (permissions : List Permission) (processed : List String),
    ∀ x, x ∈ (collect_role_permissions store worklist permissions processed).2 →
      x ∈ processed ∨ ∃ s ∈ worklist, Relation.ReflTransGen (inherits_step store) s x := by
  refine collect_role_permissions.induct store
    (motive := fun worklist permissions processed =>
      ∀ x, x ∈ (collect_role_permissions store worklist permissions processed).2 →
        x ∈ processed ∨ ∃ s ∈ worklist, Relation.ReflTransGen (inherits_step store) s x)
    ?_ ?_ ?_ ?_
  · intro permissions processed x hx
    rw [collect_nil] at hx
    exact Or.inl hx
  · intro permissions processed n rest hmem ih x hx
    rw [collect_skip store n rest permissions processed hmem] at hx
    rcases ih x hx with h | ⟨s, hs, hp⟩
    · exact Or.inl h
    · exact Or.inr ⟨s, List.mem_cons_of_mem _ hs, hp⟩
  · intro permissions processed n rest hmem hrole ih x hx
    rw [collect_miss store n rest permissions processed hmem hrole] at hx
    rcases ih x hx with h | ⟨s, hs, hp⟩
    · rcases List.mem_cons.1 h with rfl | h2
      · exact Or.inr ⟨x, List.mem_cons_self _ _, Relation.ReflTransGen.refl⟩
      · exact Or.inl h2
    · exact Or.inr ⟨s, List.mem_cons_of_mem _ hs, hp⟩
  · intro permissions processed n rest hmem r hrole ih x hx
    rw [collect_found store n rest permissions processed r hmem hrole] at hx
    rcases ih x hx with h | ⟨s, hs, hp⟩
    · rcases List.mem_cons.1 h with rfl | h2
      · exact Or.inr ⟨x, List.mem_cons_self _ _, Relation.ReflTransGen.refl⟩
      · exact Or.inl h2
    · rcases List.mem_append.1 hs with hsi | hsr
      · exact Or.inr ⟨n, List.mem_cons_self _ _,
          Relation.ReflTransGen.head ⟨r, hrole, hsi⟩ hp⟩
      · exact Or.inr ⟨s, List.mem_cons_of_mem _ hsr, hp⟩

theorem collect_mono (store : RBACStore) :
    ∀ (worklist : List String) (permissions : List Permission) (processed : List String),
    ∀ x, (x ∈ worklist ∨ x ∈ processed) →
      x ∈ (collect_role_permissions store worklist permissions processed).2 := by
  refine collect_role_permissions.induct store
    (motive := fun worklist permissions processed =>
      ∀ x, (x ∈ worklist ∨ x ∈ processed) →
        x ∈ (collect_role_permissions store worklist permissions processed).2)
    ?_ ?_ ?_ ?_
  · intro permissions processed x hx
    rw [collect_nil]
    rcases hx with h | h
    · exact absurd h (by simp)
    · exact h
  · intro permissions processed n rest hmem ih x hx
    rw [collect_skip store n rest permissions processed hmem]
    apply ih
    rcases hx with h | h
    · rcases List.mem_cons.1 h with rfl | h2
      · exact Or.inr (by simpa using hmem)
      · exact Or.inl h2
    · exact Or.inr h
  · intro permissions processed n rest hmem hrole ih x hx
    rw [collect_miss store n rest permissions processed hmem hrole]
    apply ih
    rcases hx with h | h
    · rcases List.mem_cons.1 h with rfl | h2
      · exact Or.inr (List.mem_cons_self _ _)
      · exact Or.inl h2
    · exact Or.inr (List.mem_cons_of_mem _ h)
  · intro permissions processed n rest hmem r hrole ih x hx
    rw [collect_found store n rest permissions processed r hmem hrole]
    apply ih
    rcases hx with h | h
    · rcases List.mem_cons.1 h with rfl | h2
      · exact Or.inr (List.mem_cons_self _ _)
      · exact Or.inl (List.mem_append.2 (Or.inr h2))
    · exact Or.inr (List.mem_cons_of_mem _ h)

theorem collect_closed (store : RBACStore) :
    ∀ (worklist : List String) (permissions : List Permission) (processed : List String),
    (∀ a ∈ processed, ∀ r, get_role store a = some r → ∀ b ∈ r.inherits_from,
      b ∈ processed ∨ b ∈ worklist) →
    ∀ a ∈ (collect_role_permissions store worklist permissions processed).2,
      ∀ r, get_role store a = some r → ∀ b ∈ r.inherits_from,
        b ∈ (collect_role_permissions store worklist permissions processed).2 := by
  refine collect_role_permissions.induct store
    (motive := fun worklist permissions processed =>
      (∀ a ∈ processed, ∀ r, get_role store a = some r → ∀ b ∈ r.inherits_from,
        b ∈ processed ∨ b ∈ worklist) →
      ∀ a ∈ (collect_role_permissions store worklist permissions processed).2,
        ∀ r, get_role store a = some r → ∀ b ∈ r.inherits_from,
          b ∈ (collect_role_permissions store worklist permissions processed).2)
    ?_ ?_ ?_ ?_
  · intro permissions processed H a ha r hr b hb
    rw [collect_nil] at ha ⊢
    rcases H a ha r hr b hb with h | h
    · exact h
    · exact absurd h (by simp)
  · intro permissions processed n rest hmem ih H
    rw [collect_skip store n rest permissions processed hmem]
    apply ih
    intro a ha r hr b hb
    rcases H a ha r hr b hb with h | h
    · exact Or.inl h
    · rcases List.mem_cons.1 h with rfl | h2
      · exact Or.inl (by simpa using hmem)
      · exact Or.inr h2
  · intro permissions processed n rest hmem hrole ih H
    rw [collect_miss store n rest permissions processed hmem hrole]
    apply ih
    intro a ha r hr b hb
    rcases List.mem_cons.1 ha with rfl | ha2
    · rw [hrole] at hr
      exact absurd hr (by simp)
    · rcases H a ha2 r hr b hb with h | h
      · exact Or.inl (List.mem_cons_of_mem _ h)
      · rcases List.mem_cons.1 h with rfl | h2
        · exact Or.inl (List.mem_cons_self _ _)
        · exact Or.inr h2
  · intro permissions processed n rest hmem r hrole ih H
    rw [collect_found store n rest permissions processed r hmem hrole]
    apply ih
    intro a ha r2 hr2 b hb
    rcases List.mem_cons.1 ha with rfl | ha2
    · rw [hrole] at hr2
      injection hr2 with h3
      subst h3
      exact Or.inr (List.mem_append.2 (Or.inl hb))
    · rcases H a ha2 r2 hr2 b hb with h | h
      · exact Or.inl (List.mem_cons_of_mem _ h)
      · rcases List.mem_cons.1 h with rfl | h2
        · exact Or.inl (List.mem_cons_self _ _)
        · exact Or.inr (List.mem_append.2 (Or.inr h2))

theorem collect_complete (store : RBACStore) :
    ∀ (worklist : List String) (s x : String),
    s ∈ worklist → Relation.ReflTransGen (inherits_step store) s x →
    x ∈ (collect_role_permissions store worklist [] []).2 := by
  intro worklist s x hs hpath
  induction hpath with
  | refl => exact collect_mono store worklist [] [] s (Or.inl hs)
  | tail hab hbc ih =>
    obtain ⟨r, hr, hc⟩ := hbc
    exact collect_closed store worklist [] []
      (by intro a ha; exact absurd ha (by simp)) _ ih r hr _ hc

/-- C4: role-inheritance resolution terminates on every role graph,
including cyclic `inherits_from` (the traversal is a total function); the
processed-role list is duplicate-free, the collected permissions are exactly
the concatenation of the permission lists of the processed roles — each
reachable role's permissions exactly once — and a role is processed exactly
when it is reachable from the user's assigned roles through `inherits_from`.
On the concrete chain C→B→A with the added cycle A→C, `get_user_permissions`
returns the union of C, B, A's permissions, each exactly once. -/
theorem C4_inheritance_closure :
    (∀ (store : RBACStore) (names : List String),
      (collect_role_permissions store names [] []).2.Nodup ∧
      (collect_role_permissions store names [] []).1 =
        (((collect_role_permissions store names [] []).2.reverse.filterMap
            (get_role store)).map Role.permissions).flatten ∧
      (∀ x, x ∈ (collect_role_permissions store names [] []).2 ↔
        ∃ s ∈ names, Relation.ReflTransGen (inherits_step store) s x)) ∧
    get_user_permissions c4_store "u1" = [perm_of_c, perm_of_b, perm_of_a] := by
  constructor
  · intro store names
    obtain ⟨fresh, h2, hnotin, hnd, h1⟩ := collect_spec store names [] []
    have hfr : (collect_role_permissions store names [] []).2 = fresh := by
      rw [h2]
      simp
    refine ⟨?_, ?_, ?_⟩
    · rw [hfr]
      exact hnd
    · rw [hfr, h1]
      simp
    · intro x
      constructor
      · intro hx
        rcases collect_sound store names [] [] x hx with h | h
        · exact absurd h (by simp)
        · exact h
      · rintro ⟨s, hs, hp⟩
        exact collect_complete store names s x hs hp
  · have e1 : get_user_permissions c4_store "u1" =
        (collect_role_permissions c4_store ["chain_c"] [] []).1 := rfl
    rw [e1]
    rw [collect_found c4_store "chain_c" [] [] [] _ (by decide) rfl]
    simp only [List.nil_append, List.append_nil]
    rw [collect_found c4_store "chain_b" [] _ _ _ (by decide) rfl]
    simp only [List.nil_append, List.append_nil]
    rw [collect_found c4_store "chain_a" [] _ _ _ (by decide) rfl]
    simp only [List.nil_append, List.append_nil]
    rw [collect_skip c4_store "chain_c" [] _ _ (by decide)]
    rw [collect_nil]
    rfl

/-- C1 witness: the deny-overrides-allow evaluation at the concrete
two-role store. -/
theorem C1_witness :
    check_permission c1_store "u1" ResourceType.query Action.read Option.none
      Context.empty = false :=
  C1_deny_overrides_allow.2

/-- C3 witness: the amended matching rule instantiated at the allow-listed
permission and the listed resource id. -/
theorem C3_witness :
    permission_matches listed_permission ResourceType.query Action.read (some "a")
        Context.empty = true ↔
      (listed_permission.resource_type = ResourceType.query ∧
       (listed_permission.action = Action.read ∨ listed_permission.action = Action.admin) ∧
       (∀ ids, listed_permission.resource_ids = some ids → ids ≠ [] →
          ∀ r, (some "a" : Option String) = some r → r ≠ "" → r ∈ ids) ∧
       evaluate_conditions listed_permission.conditions Context.empty = true) :=
  C3_matching_rule listed_permission ResourceType.query Action.read (some "a") Context.empty

/-- C4 witness: on the concrete cyclic store the processed-role list is
duplicate-free and `chain_a` is processed exactly when reachable. -/
theorem C4_witness :
    (collect_role_permissions c4_store ["chain_c"] [] []).2.Nodup ∧
    ("chain_a" ∈ (collect_role_permissions c4_store ["chain_c"] [] []).2 ↔
      ∃ s ∈ ["chain_c"], Relation.ReflTransGen (inherits_step c4_store) s "chain_a") :=
  ⟨(C4_inheritance_closure.1 c4_store ["chain_c"]).1,
   (C4_inheritance_closure.1 c4_store ["chain_c"]).2.2 "chain_a"⟩

/-- C10 witness: the round-trip at a concrete permission and role. -/
theorem C10_witness :
    deserialize_permission (serialize_permission listed_permission)
      = some listed_permission ∧
    deserialize_role (serialize_role role_a) = some role_a :=
  ⟨C10_serialization_round_trip.1 listed_permission,
   C10_serialization_round_trip.2 role_a⟩

end SQLGenius
